import Mathlib

/-!
Shallow embedding of the Bricks listener toolkit.

The model covers:
* the result enumerations AddResult (AddResult.h) and RemoveResult (RemoveResult.h);
* the listener collection Listeners (src/include/listeners/Listeners.h): add, remove,
  contains, empty, size over the stored vector, generic in the element type together
  with its truthiness test (the C++ code relies on contextual conversion to bool of
  the stored representation);
* the key-based std::unique_ptr specialization's contains (Listeners.h lines 497-511),
  with stored entries modelled by their nonzero address keys;
* the dispatch helper Invoke (Invoke.h / the extended variant with the vector
  overload): single-target invocation, the std::weak_ptr specialization that routes
  through the shared-pointer path after lock(), and the index-based size-reread bulk
  traversal, instrumented with the list of performed calls;
* the single-slot holder Listener (src/include/Listener.h): set / reset / empty /
  invoke / invokeR, and the move-construction behaviour of the different
  representation kinds (SafeObj::take is a std::move of the payload: it empties a
  smart-pointer payload but merely copies a raw-pointer payload).

Nullable handles (raw pointers, shared pointers) are modelled as Option values; a
weak pointer is modelled by the Option value its lock() would produce (none when
expired). Reentrant mutation during dispatch is modelled by passing the callback's
effect on the stored vector as an explicit function.
-/

namespace Bricks

/-- Result enumeration of Listeners::add, from AddResult.h. -/
inductive AddResult
  | NullInput
  | Duplicate
  | OkFirst
  | Ok
deriving DecidableEq, Repr

/-- Result enumeration of Listeners::remove, from RemoveResult.h. -/
inductive RemoveResult
  | NullInput
  | OkLast
  | Ok
deriving DecidableEq, Repr

/-- Erasure of the first element equal to the argument: the effect of
std::find followed by vector::erase in Listeners::remove (Listeners.h 375-377). -/
def eraseFirst {α : Type} [DecidableEq α] : List α → α → List α
  | [], _ => []
  | a :: rest, x => if a = x then rest else a :: eraseFirst rest x

namespace Listeners

/-- Listeners::add (Listeners.h lines 356-368): reject a falsy input with NullInput;
otherwise scan for an equal element (Duplicate if found); otherwise push_back and
answer OkFirst when the new size is 1, else Ok. -/
def add {α : Type} [DecidableEq α] (truthy : α → Bool) (l : List α) (x : α) :
    AddResult × List α :=
  if truthy x then
    if x ∈ l then (AddResult.Duplicate, l)
    else
      let l2 := l ++ [x]
      (if l2.length = 1 then AddResult.OkFirst else AddResult.Ok, l2)
  else (AddResult.NullInput, l)

/-- Listeners::remove (Listeners.h lines 371-382): reject a falsy input; erase the
first equal element, answering OkLast when the vector became empty and Ok otherwise;
answer NullInput when no equal element was found. -/
def remove {α : Type} [DecidableEq α] (truthy : α → Bool) (l : List α) (x : α) :
    RemoveResult × List α :=
  if truthy x then
    if x ∈ l then
      let l2 := eraseFirst l x
      (if l2.isEmpty then RemoveResult.OkLast else RemoveResult.Ok, l2)
    else (RemoveResult.NullInput, l)
  else (RemoveResult.NullInput, l)

/-- Listeners::contains (Listeners.h lines 385-393): false for a falsy input,
otherwise a linear scan for an equal element. -/
def contains {α : Type} [DecidableEq α] (truthy : α → Bool) (l : List α) (x : α) :
    Bool :=
  if truthy x then decide (x ∈ l) else false

/-- Listeners::empty (Listeners.h lines 406-411). -/
def empty {α : Type} (l : List α) : Bool := l.isEmpty

/-- Listeners::size (Listeners.h lines 413-418). -/
def size {α : Type} (l : List α) : Nat := l.length

/-- Listeners move construction (Listeners.h lines 349-353): the stored vector is
taken out of the source, leaving the source vector empty; the pair is
(destination contents, source contents after the move). -/
def moveCtor {α : Type} (src : List α) : List α × List α := (src, [])

end Listeners

namespace UniqueListeners

/-- contains of the std::unique_ptr specialization (Listeners.h lines 497-511):
stored entries are modelled by their address keys (key = reinterpret_cast of the
raw pointer; 0 for a null entry). A zero key is rejected before any scan. -/
def contains (keys : List Nat) (k : Nat) : Bool :=
  if k ≠ 0 then decide (k ∈ keys) else false

end UniqueListeners

namespace Invoke

/-- Invoke make on a single nullable listener (Invoke.h lines 47-55): when the
handle is non-null, perform the operation on the target and record the call;
otherwise produce a default-constructed result and perform no call. The second
component is the list of targets actually called. -/
def make {τ ρ : Type} [Inhabited ρ] (listener : Option τ) (op : τ → ρ) :
    ρ × List τ :=
  match listener with
  | some t => (op t, [t])
  | none => (default, [])

end Invoke

/-- A std::weak_ptr handle, modelled by the Option value its lock() produces:
none exactly when the weak pointer is expired. -/
abbrev WeakPtr (τ : Type) : Type := Option τ

namespace WeakPtr

/-- weak_ptr::lock: upgrade to a (possibly null) shared handle. -/
def lock {τ : Type} (w : WeakPtr τ) : Option τ := w

/-- weak_ptr expiration test. -/
def expired {τ : Type} (w : WeakPtr τ) : Bool := w.isNone

end WeakPtr

namespace WeakInvoke

/-- make of the std::weak_ptr specialization (Invoke.h lines 87-92): lock the weak
pointer and forward the possibly-null shared handle to the shared-pointer path. -/
def make {τ ρ : Type} [Inhabited ρ] (w : WeakPtr τ) (op : τ → ρ) : ρ × List τ :=
  Invoke.make (WeakPtr.lock w) op

/-- empty of the std::weak_ptr specialization: the expiration test. -/
def empty {τ : Type} (w : WeakPtr τ) : Bool := WeakPtr.expired w

end WeakInvoke

/-- The single-slot holder Listener (Listener.h): its state is the stored nullable
representation. -/
abbrev Listener (τ : Type) : Type := Option τ

namespace Listener

/-- Listener::set (Listener.h lines 318-324): replace the stored representation. -/
def set {τ : Type} (_s : Listener τ) (x : Option τ) : Listener τ := x

/-- Listener::reset: set the empty representation. -/
def reset {τ : Type} (s : Listener τ) : Listener τ := set s none

/-- Listener::empty (Listener.h lines 326-331): the stored handle is null. -/
def empty {τ : Type} (s : Listener τ) : Bool := s.isNone

/-- Listener::invoke (Listener.h lines 333-339): void result; the observable
behaviour is the list of performed calls. -/
def invoke {τ ρ : Type} [Inhabited ρ] (s : Listener τ) (op : τ → ρ) : List τ :=
  (Invoke.make s op).2

/-- Listener::invokeR (Listener.h lines 341-347): the produced result. -/
def invokeR {τ ρ : Type} [Inhabited ρ] (s : Listener τ) (op : τ → ρ) : ρ :=
  (Invoke.make s op).1

/-- Listener move construction for a plain raw-handle payload (Listener.h lines
312-316): the destination receives SafeObj::take of the source, and take returns
std::move of the payload (SafeObj.h line 175) - for a raw pointer std::move is a
copy, so the source slot keeps its value. The pair is (destination, source after
the move). -/
def moveCtorPlain {τ : Type} (src : Listener τ) : Listener τ × Listener τ :=
  (src, src)

/-- Listener move construction for a smart-pointer payload (the shared_ptr
specialization, Listener.h lines 372-376, and the generic holder over weak_ptr):
moving the smart pointer nulls the source. -/
def moveCtorSmart {τ : Type} (src : Listener τ) : Listener τ × Listener τ :=
  (src, none)

end Listener

/-- Invoke make over a vector of listeners (the vector overload, with the
index-based size-reread traversal): read the size, invoke the element at the
current index when in range, then advance the index only when the size did not
shrink across the call. The reentrant mutation a callback performs on the stored
vector is modelled by eff; fuel bounds the loop (a callback may grow the vector,
so the source loop need not terminate in general). Produces (performed calls,
final vector contents). -/
def invokeMany {α : Type} (truthy : α → Bool) (eff : α → List α → List α) :
    Nat → Nat → List α → List α × List α
  | 0, _, l => ([], l)
  | fuel + 1, i, l =>
    if h : i < l.length then
      let x := l.get ⟨i, h⟩
      let called : List α := if truthy x then [x] else []
      let l2 := if truthy x then eff x l else l
      let i2 := if l.length ≤ l2.length then i + 1 else i
      let rest := invokeMany truthy eff fuel i2 l2
      (called ++ rest.1, rest.2)
    else ([], l)

/-- Truthiness of a plain handle modelled as a natural number: 0 is the null
handle. -/
def ptrTruthy : Nat → Bool := fun x => decide (x ≠ 0)

/-- The reentrancy scenario callback: the operation invoked on listener A (= 1)
calls remove(B) (= 2) on the same collection; other listeners leave the
collection unchanged. -/
def removeBEff : Nat → List Nat → List Nat :=
  fun x l => if x = 1 then (Listeners.remove ptrTruthy l 2).2 else l

/-- Calls performed by dispatch over [A, B, C] = [1, 2, 3] when A's callback
removes B. -/
def reentrantTrace : List Nat := (invokeMany ptrTruthy removeBEff 10 0 [1, 2, 3]).1

/-- Collection contents after that dispatch. -/
def reentrantFinal : List Nat := (invokeMany ptrTruthy removeBEff 10 0 [1, 2, 3]).2

/-- Decomposition of eraseFirst at a present element: the list splits around the
first occurrence of the element, and exactly that occurrence disappears. -/
theorem eraseFirst_eq_of_mem {α : Type} [DecidableEq α] (x : α) :
    ∀ l : List α, x ∈ l →
      ∃ l1 l2, l = l1 ++ x :: l2 ∧ x ∉ l1 ∧ eraseFirst l x = l1 ++ l2 := by
  intro l
  induction l with
  | nil => intro h; simp at h
  | cons a t ih =>
    intro hmem
    by_cases ha : a = x
    · subst ha
      exact ⟨[], t, by simp, by simp, by simp [eraseFirst]⟩
    · have hx : x ∈ t := by
        rcases List.mem_cons.mp hmem with h | h
        · exact absurd h.symm ha
        · exact h
      rcases ih hx with ⟨l1, l2, he, hnot, her⟩
      refine ⟨a :: l1, l2, by simp [he], ?_, by simp [eraseFirst, ha, her]⟩
      simp only [List.mem_cons, not_or]
      exact ⟨fun h => ha h.symm, hnot⟩

/-- C1 (counterexample). In the [A, B, C] = [1, 2, 3] scenario where the callback
invoked on A removes B from the same collection, the dispatch trace under the
size-reread traversal is [A, A, C]: the element A is invoked twice, refuting
the claim that no element is invoked twice and that the index is re-visited only
when another element slid into it. -/
theorem reentrant_remove_double_invoke :
    reentrantTrace = [1, 1, 3] ∧ 2 ≤ reentrantTrace.count 1 := by
  constructor
  · rfl
  · decide

/-- C1 (amended). In the [A, B, C] scenario where A's callback removes B, the
dispatch still invokes C exactly once and never invokes B after its removal, and
B is indeed gone from the collection afterwards; however the traversal re-visits
the current index whenever the size shrank across the callback, regardless of
where the removal happened, so A (still at the current index) is invoked twice. -/
theorem reentrant_remove_trace_spec :
    reentrantTrace.count 3 = 1 ∧ reentrantTrace.count 2 = 0 ∧
      reentrantTrace.count 1 = 2 ∧ reentrantFinal = [1, 3] := by
  refine ⟨by decide, by decide, by decide, rfl⟩

/-- C2 (counterexample). A successful add after an intervening remove that emptied
the collection again returns OkFirst, not Ok: add(1) gives OkFirst, remove(1)
gives OkLast, and then add(2) gives OkFirst although it is not the first-ever
successful add over the collection's lifetime. -/
theorem add_after_remove_okfirst_again :
    (Listeners.add ptrTruthy [] 1).1 = AddResult.OkFirst ∧
      (Listeners.remove ptrTruthy (Listeners.add ptrTruthy [] 1).2 1).1 =
        RemoveResult.OkLast ∧
      (Listeners.add ptrTruthy
          (Listeners.remove ptrTruthy (Listeners.add ptrTruthy [] 1).2 1).2 2).1 =
        AddResult.OkFirst ∧
      AddResult.OkFirst ≠ AddResult.Ok := by
  refine ⟨rfl, rfl, rfl, by decide⟩

/-- C2 (amended). A successful add of a truthy, absent listener returns OkFirst
exactly when the collection was empty immediately before the add (the new size is
1), and Ok otherwise; so the first-ever add returns OkFirst, adds onto a non-empty
collection return Ok, and an add after the collection was emptied again returns
OkFirst. -/
theorem add_okfirst_iff_was_empty {α : Type} [DecidableEq α] (truthy : α → Bool)
    (l : List α) (x : α) (hx : truthy x = true) (hmem : x ∉ l) :
    (Listeners.add truthy l x).1 =
      if l.isEmpty then AddResult.OkFirst else AddResult.Ok := by
  cases l with
  | nil => simp [Listeners.add, hx]
  | cons a t =>
    have hmem' : ¬ x ∈ a :: t := hmem
    simp [Listeners.add, hx, hmem']

/-- Witness for the amended C2 at a concrete input. -/
theorem add_okfirst_iff_was_empty_witness :
    ptrTruthy 7 = true ∧ ¬ (7 : Nat) ∈ [5] ∧
      (Listeners.add ptrTruthy [5] 7).1 =
        if ([5] : List Nat).isEmpty then AddResult.OkFirst else AddResult.Ok :=
  ⟨by decide, by decide, add_okfirst_iff_was_empty ptrTruthy [5] 7 (by decide)
    (by decide)⟩

/-- C3 (code bug, evaluated at the failing input). Move-constructing a holder of a
plain raw handle leaves the source still holding the handle (SafeObj::take's
std::move of a raw pointer is a copy), so the moved-from source reports
empty() = false, against the spec and take's own documentation; by contrast the
smart-pointer holder specialization and the collection really do empty their
source. -/
theorem move_plain_source_not_empty :
    (Listener.moveCtorPlain (some 7 : Listener Nat)).1 = some 7 ∧
      Listener.empty (Listener.moveCtorPlain (some 7 : Listener Nat)).2 = false ∧
      Listener.empty (Listener.moveCtorSmart (some 7 : Listener Nat)).2 = true ∧
      (Listeners.moveCtor [1, 2, 3]).1 = [1, 2, 3] ∧
      Listeners.size (Listeners.moveCtor ([1, 2, 3] : List Nat)).2 = 0 := by
  refine ⟨rfl, rfl, rfl, rfl, rfl⟩

/-- C4. After set(x), invoke calls the operation exactly once on the target when
the stored representation is non-empty (non-null plain or shared handle,
non-expired weak handle) and zero times when it is empty or expired; invokeR
produces the operation's result in the non-empty case and a default-constructed
result in the empty case. -/
theorem holder_set_invoke_once {τ ρ : Type} [Inhabited ρ] (s : Listener τ) (t : τ)
    (op : τ → ρ) :
    Listener.invoke (Listener.set s (some t)) op = [t] ∧
      Listener.invoke (Listener.set s none) op = [] ∧
      Listener.invokeR (Listener.set s (some t)) op = op t ∧
      Listener.invokeR (Listener.set s none) op = default ∧
      WeakInvoke.make (some t : WeakPtr τ) op = (op t, [t]) ∧
      WeakInvoke.make (none : WeakPtr τ) op = (default, []) :=
  ⟨rfl, rfl, rfl, rfl, rfl, rfl⟩

/-- C5. For a truthy representation, add followed by contains answers true, and a
second add with no intervening removal returns Duplicate and leaves the stored
vector unchanged. -/
theorem add_contains_and_duplicate {α : Type} [DecidableEq α] (truthy : α → Bool)
    (l : List α) (x : α) (hx : truthy x = true) :
    Listeners.contains truthy (Listeners.add truthy l x).2 x = true ∧
      Listeners.add truthy (Listeners.add truthy l x).2 x =
        (AddResult.Duplicate, (Listeners.add truthy l x).2) := by
  by_cases h : x ∈ l
  · have h2 : (Listeners.add truthy l x).2 = l := by simp [Listeners.add, hx, h]
    rw [h2]
    exact ⟨by simp [Listeners.contains, hx, h], by simp [Listeners.add, hx, h]⟩
  · have h2 : (Listeners.add truthy l x).2 = l ++ [x] := by
      simp [Listeners.add, hx, h]
    rw [h2]
    constructor
    · simp [Listeners.contains, hx]
    · simp [Listeners.add, hx]

/-- Witness for C5 at a concrete input. -/
theorem add_contains_and_duplicate_witness :
    ptrTruthy 4 = true ∧
      Listeners.contains ptrTruthy (Listeners.add ptrTruthy [9] 4).2 4 = true ∧
      Listeners.add ptrTruthy (Listeners.add ptrTruthy [9] 4).2 4 =
        (AddResult.Duplicate, (Listeners.add ptrTruthy [9] 4).2) :=
  ⟨by decide, add_contains_and_duplicate ptrTruthy [9] 4 (by decide)⟩

/-- C6. Adding the empty (falsy) representation returns NullInput and leaves the
stored vector, hence its size, unchanged. -/
theorem add_null_input {α : Type} [DecidableEq α] (truthy : α → Bool) (l : List α)
    (x : α) (hx : truthy x = false) :
    Listeners.add truthy l x = (AddResult.NullInput, l) ∧
      Listeners.size (Listeners.add truthy l x).2 = Listeners.size l := by
  constructor
  · simp [Listeners.add, hx]
  · simp [Listeners.add, hx]

/-- Witness for C6 at a concrete input. -/
theorem add_null_input_witness :
    ptrTruthy 0 = false ∧
      Listeners.add ptrTruthy [3, 4] 0 = (AddResult.NullInput, [3, 4]) ∧
      Listeners.size (Listeners.add ptrTruthy [3, 4] 0).2 =
        Listeners.size [3, 4] :=
  ⟨by decide, add_null_input ptrTruthy [3, 4] 0 (by decide)⟩

/-- C7. Removing a truthy representation that is absent returns NullInput (the
same tag as for an empty input) and leaves the stored vector unchanged; and when
the representation is present, remove erases exactly the first equal element and
nothing else. -/
theorem remove_absent_and_first_only {α : Type} [DecidableEq α] (truthy : α → Bool)
    (l : List α) (x : α) (hx : truthy x = true) :
    (x ∉ l → Listeners.remove truthy l x = (RemoveResult.NullInput, l)) ∧
      (x ∈ l → ∃ l1 l2, l = l1 ++ x :: l2 ∧ x ∉ l1 ∧
        (Listeners.remove truthy l x).2 = l1 ++ l2) := by
  constructor
  · intro h; simp [Listeners.remove, hx, h]
  · intro h
    rcases eraseFirst_eq_of_mem x l h with ⟨l1, l2, he, hn, her⟩
    exact ⟨l1, l2, he, hn, by simp [Listeners.remove, hx, h, her]⟩

/-- Witness for C7 at a concrete input. -/
theorem remove_absent_and_first_only_witness :
    ptrTruthy 1 = true ∧
      ((1 : Nat) ∉ [2, 3] →
        Listeners.remove ptrTruthy [2, 3] 1 = (RemoveResult.NullInput, [2, 3])) ∧
      ((1 : Nat) ∈ [2, 3] → ∃ l1 l2, [2, 3] = l1 ++ 1 :: l2 ∧ (1 : Nat) ∉ l1 ∧
        (Listeners.remove ptrTruthy [2, 3] 1).2 = l1 ++ l2) :=
  ⟨by decide, remove_absent_and_first_only ptrTruthy [2, 3] 1 (by decide)⟩

/-- C8. Removing the only element of a singleton collection returns OkLast, after
which empty() is true and size() is 0; and whenever more than one element remains
after a successful removal the result is Ok. -/
theorem remove_last_oklast {α : Type} [DecidableEq α] (truthy : α → Bool) (x : α)
    (l : List α) (hx : truthy x = true) :
    Listeners.remove truthy [x] x = (RemoveResult.OkLast, []) ∧
      Listeners.empty (Listeners.remove truthy [x] x).2 = true ∧
      Listeners.size (Listeners.remove truthy [x] x).2 = 0 ∧
      (x ∈ l → 1 < (Listeners.remove truthy l x).2.length →
        (Listeners.remove truthy l x).1 = RemoveResult.Ok) := by
  refine ⟨?_, ?_, ?_, ?_⟩
  · simp [Listeners.remove, hx, eraseFirst]
  · simp [Listeners.remove, hx, eraseFirst, Listeners.empty]
  · simp [Listeners.remove, hx, eraseFirst, Listeners.size]
  · intro hm hlen
    simp only [Listeners.remove, hx, if_true, hm, if_pos] at hlen ⊢
    have hne : eraseFirst l x ≠ [] := by
      intro h
      rw [h] at hlen
      simp at hlen
    simp [List.isEmpty_iff, hne]

/-- Witness for C8 at a concrete input. -/
theorem remove_last_oklast_witness :
    ptrTruthy 1 = true ∧
      Listeners.remove ptrTruthy [1] 1 = (RemoveResult.OkLast, []) ∧
      Listeners.empty (Listeners.remove ptrTruthy [1] 1).2 = true ∧
      Listeners.size (Listeners.remove ptrTruthy [1] 1).2 = 0 ∧
      ((1 : Nat) ∈ [1, 2, 3] → 1 < (Listeners.remove ptrTruthy [1, 2, 3] 1).2.length →
        (Listeners.remove ptrTruthy [1, 2, 3] 1).1 = RemoveResult.Ok) :=
  ⟨by decide, remove_last_oklast ptrTruthy 1 [1, 2, 3] (by decide)⟩

/-- C9. When the target of a weak handle has been destroyed before invoke, the
weak handle is expired: invoke performs zero calls, produces a default-constructed
result, and the invocation is exactly the shared-handle path applied to the null
result of lock(). -/
theorem weak_expired_zero_calls {τ ρ : Type} [Inhabited ρ] (w : WeakPtr τ)
    (op : τ → ρ) (h : WeakInvoke.empty w = true) :
    WeakInvoke.make w op = (default, []) ∧
      WeakInvoke.make w op = Invoke.make (WeakPtr.lock w) op := by
  have hw : w = none := Option.isNone_iff_eq_none.mp h
  subst hw
  exact ⟨rfl, rfl⟩

/-- Witness for C9 at a concrete input. -/
theorem weak_expired_zero_calls_witness :
    WeakInvoke.empty (none : WeakPtr Nat) = true ∧
      WeakInvoke.make (none : WeakPtr Nat) (fun t => t + 1) = (default, []) ∧
      WeakInvoke.make (none : WeakPtr Nat) (fun t => t + 1) =
        Invoke.make (WeakPtr.lock (none : WeakPtr Nat)) (fun t => t + 1) :=
  ⟨by decide, weak_expired_zero_calls (none : WeakPtr Nat) (fun t => t + 1) rfl⟩

/-- C10. A contains query with an empty (falsy) representation answers false for
every stored vector, and the key-based unique_ptr variant's contains(0) answers
false for every stored sequence of keys. -/
theorem contains_null_false {α : Type} [DecidableEq α] (truthy : α → Bool)
    (l : List α) (x : α) (keys : List Nat) (hx : truthy x = false) :
    Listeners.contains truthy l x = false ∧
      UniqueListeners.contains keys 0 = false := by
  constructor
  · simp [Listeners.contains, hx]
  · simp [UniqueListeners.contains]

/-- Witness for C10 at a concrete input. -/
theorem contains_null_false_witness :
    ptrTruthy 0 = false ∧
      Listeners.contains ptrTruthy [1, 2] 0 = false ∧
      UniqueListeners.contains [5, 6] 0 = false :=
  ⟨by decide, contains_null_false ptrTruthy [1, 2] 0 [5, 6] (by decide)⟩

end Bricks
